import Mathlib

/-!
Verification of the glue logic of `urbanHeat_tools.py`: file renaming,
folder creation, output-path construction, call sequencing towards the
external GIS toolbox, and the derivation of attribute-field names.

Strings are modelled by Lean `String`; the Python string operations used
by the script (`str.split` on a one-character separator, `str.startswith`,
`os.path.splitext`, `os.path.join`) are re-implemented below following the
CPython semantics.  Calls into the external `arcpy` toolbox are modelled
by an oracle `ArcOp → Except ε String`; the filesystem, where needed, by a
map from paths to file contents.
-/

namespace UrbanHeat

/-- Python `s.split(sep)` for a one-character separator, on the character
list of `s`: splitting the empty string gives `[[]]`, and every occurrence
of the separator starts a new (possibly empty) chunk. -/
def pySplit (sep : Char) : List Char → List (List Char)
  | [] => [[]]
  | c :: cs =>
    let r := pySplit sep cs
    if c = sep then [] :: r
    else
      match r with
      | [] => [[c]]
      | w :: ws => (c :: w) :: ws

/-- `pySplit` never returns the empty list of chunks. -/
theorem pySplit_ne_nil (sep : Char) (cs : List Char) : pySplit sep cs ≠ [] := by
  induction cs with
  | nil => simp [pySplit]
  | cons c cs ih =>
    simp only [pySplit]
    by_cases h : c = sep
    · simp [h]
    · simp only [h, if_false]
      cases hr : pySplit sep cs with
      | nil => simp
      | cons w ws => simp

/-- Python `s.split(sep)` for a one-character separator, as a list of
strings. -/
def split (sep : Char) (s : String) : List String :=
  (pySplit sep s.toList).map String.mk

/-- Python `s.startswith(pre)`. -/
def pyStarts (s pre : String) : Bool :=
  pre.toList.isPrefixOf s.toList

/-- Index of the last occurrence of a character in a list, when present
(Python `s.rfind(c)` restricted to the found case). -/
def lastIndexOf (c : Char) : List Char → Option Nat
  | [] => none
  | x :: xs =>
    match lastIndexOf c xs with
    | some i => some (i + 1)
    | none => if x = c then some 0 else none

/-- Python `os.path.splitext` (POSIX rules: the separator is `/`; every
file name the script passes in is a separator-free basename, on which the
POSIX and Windows variants agree): split at the last dot provided it lies
after the last separator and the basename part before it is not entirely
dots. -/
def splitext (p : String) : String × String :=
  let cs := p.toList
  let sepIdx : Int :=
    match lastIndexOf '/' cs with
    | some i => (i : Int)
    | none => -1
  match lastIndexOf '.' cs with
  | none => (p, "")
  | some dotIdx =>
    if sepIdx < (dotIdx : Int) then
      let start := (sepIdx + 1).toNat
      if (List.range (dotIdx - start)).any (fun k => cs.getD (start + k) '.' != '.') then
        (String.mk (cs.take dotIdx), String.mk (cs.drop dotIdx))
      else (p, "")
    else (p, "")

/-- Python `os.path.join(a, b)` for two components (POSIX rules): an
absolute second component wins; otherwise a separator is inserted unless
`a` is empty or already ends with one. -/
def joinPath (a b : String) : String :=
  if pyStarts b "/" then b
  else if a.toList = [] ∨ a.toList.getLast? = some '/' then a ++ b
  else a ++ "/" ++ b

/-!
### `rename_rasters` (src/urbanHeat_tools.py lines 21-42)

Per file, the script runs inside `try`:
`if file.split("_")[4].startswith('Sentinel')` then the new name is
`f"{parts[4]}_{parts[5]}_{parts[6]}{ext}"` with `ext = splitext(file)[1]`,
else `pass`; any exception (in particular `IndexError` from `parts[4]`,
`parts[5]` or `parts[6]`) is caught and only logged.  `renameResult file`
is `some newName` when the file is renamed and `none` when it keeps its
name. -/
def renameResult (file : String) : Option String :=
  match (split '_' file)[4]? with
  | none => none
  | some t4 =>
    if pyStarts t4 "Sentinel" then
      match (split '_' file)[5]?, (split '_' file)[6]? with
      | some t5, some t6 =>
        some (t4 ++ "_" ++ t5 ++ "_" ++ t6 ++ (splitext file).2)
      | _, _ => none
    else none

end UrbanHeat

namespace UrbanHeat

/-- C1: the claim as stated is false: `"a_b_c_d_Sentinel"` splits into five
tokens whose token 4 starts with `Sentinel`, yet the file is not renamed,
because `parts[5]` raises `IndexError`, which the `except` swallows. -/
theorem rename_rasters_five_token_counterexample :
    5 ≤ (split '_' "a_b_c_d_Sentinel").length ∧
    pyStarts ((split '_' "a_b_c_d_Sentinel").getD 4 "") "Sentinel" = true ∧
    renameResult "a_b_c_d_Sentinel" = none := by
  decide

/-- C1 (amended): a file is renamed exactly when its name, split on `_`,
has seven or more tokens and token 4 starts with `Sentinel`; the new name
is then tokens 4, 5 and 6 joined by `_`, plus the original extension. -/
theorem rename_rasters_characterization (file : String) :
    renameResult file =
      if 7 ≤ (split '_' file).length ∧
          pyStarts ((split '_' file).getD 4 "") "Sentinel" = true
      then some (((split '_' file).getD 4 "") ++ "_" ++ ((split '_' file).getD 5 "") ++ "_" ++
                 ((split '_' file).getD 6 "") ++ (splitext file).2)
      else none := by
  rcases h4 : (split '_' file)[4]? with _ | t4
  · have hlen : (split '_' file).length ≤ 4 := List.getElem?_eq_none_iff.mp h4
    have hcond : ¬(7 ≤ (split '_' file).length ∧
        pyStarts ((split '_' file).getD 4 "") "Sentinel" = true) := by
      rintro ⟨h7, -⟩; omega
    rw [if_neg hcond]
    simp [renameResult, h4]
  · have hd4 : (split '_' file).getD 4 "" = t4 := by
      rw [List.getD_eq_getElem?_getD, h4]; rfl
    by_cases hS : pyStarts t4 "Sentinel" = true
    · rcases h5 : (split '_' file)[5]? with _ | t5
      · have hlen : (split '_' file).length ≤ 5 := List.getElem?_eq_none_iff.mp h5
        have hcond : ¬(7 ≤ (split '_' file).length ∧
            pyStarts ((split '_' file).getD 4 "") "Sentinel" = true) := by
          rintro ⟨h7, -⟩; omega
        rw [if_neg hcond]
        simp [renameResult, h4, h5, hS]
      · rcases h6 : (split '_' file)[6]? with _ | t6
        · have hlen : (split '_' file).length ≤ 6 := List.getElem?_eq_none_iff.mp h6
          have hcond : ¬(7 ≤ (split '_' file).length ∧
              pyStarts ((split '_' file).getD 4 "") "Sentinel" = true) := by
            rintro ⟨h7, -⟩; omega
          rw [if_neg hcond]
          simp [renameResult, h4, h5, h6, hS]
        · have hlt : 6 < (split '_' file).length := (List.getElem?_eq_some.mp h6).1
          have hd5 : (split '_' file).getD 5 "" = t5 := by
            rw [List.getD_eq_getElem?_getD, h5]; rfl
          have hd6 : (split '_' file).getD 6 "" = t6 := by
            rw [List.getD_eq_getElem?_getD, h6]; rfl
          have hcond : 7 ≤ (split '_' file).length ∧
              pyStarts ((split '_' file).getD 4 "") "Sentinel" = true :=
            ⟨by omega, by rw [hd4]; exact hS⟩
          rw [if_pos hcond]
          simp [renameResult, h4, h5, h6, hS]
    · have hcond : ¬(7 ≤ (split '_' file).length ∧
          pyStarts ((split '_' file).getD 4 "") "Sentinel" = true) := by
        rintro ⟨-, hs⟩; rw [hd4] at hs; exact hS hs
      rw [if_neg hcond]
      simp [renameResult, h4, hS]

end UrbanHeat

namespace UrbanHeat

/-!
### `create_file_structure` (src/urbanHeat_tools.py lines 8-18)

The filesystem is modelled as the list of existing directory paths, in
creation order.  For each of the seven fixed folder names the script runs
`if not os.path.exists(join(project, folder)): os.makedirs(...)`.
-/

/-- The seven fixed subfolder names, in the order of the source. -/
def folders : List String :=
  ["sentinel_rasters", "CAPA_transects", "CAPA_rasters", "focal_rasters",
   "resampled_rasters", "shapefiles", "fishnet"]

/-- One `if not exists: makedirs` step of the loop body. -/
def mkdirStep (s : List String) (d : String) : List String :=
  if d ∈ s then s else s ++ [d]

/-- Folding `mkdirStep` over a list of directory paths. -/
def mkdirs (ds : List String) (s : List String) : List String :=
  ds.foldl mkdirStep s

/-- `create_file_structure`: for each fixed folder name, create
`join(project_directory, folder)` unless it already exists. -/
def create_file_structure (project_directory : String) (s : List String) : List String :=
  folders.foldl (fun st folder =>
    if joinPath project_directory folder ∈ st then st
    else st ++ [joinPath project_directory folder]) s

theorem create_file_structure_eq_mkdirs (p : String) (s : List String) :
    create_file_structure p s = mkdirs (folders.map (joinPath p)) s := by
  rw [create_file_structure, mkdirs, List.foldl_map]
  rfl

theorem mem_mkdirs (ds : List String) (s : List String) (d : String) :
    d ∈ mkdirs ds s ↔ d ∈ s ∨ d ∈ ds := by
  induction ds generalizing s with
  | nil => simp [mkdirs]
  | cons x ds ih =>
    show d ∈ mkdirs ds (mkdirStep s x) ↔ _
    rw [ih]
    unfold mkdirStep
    by_cases hx : x ∈ s
    · simp only [hx, if_true, List.mem_cons]
      constructor
      · rintro (h | h)
        · exact Or.inl h
        · exact Or.inr (Or.inr h)
      · rintro (h | h | h)
        · exact Or.inl h
        · exact Or.inl (h ▸ hx)
        · exact Or.inr h
    · simp only [hx, if_false, List.mem_append, List.mem_singleton, List.mem_cons]
      tauto

theorem count_mkdirs (ds : List String) (s : List String) (d : String) :
    (mkdirs ds s).count d =
      if d ∈ s then s.count d else if d ∈ ds then 1 else 0 := by
  induction ds generalizing s with
  | nil =>
    by_cases hd : d ∈ s <;> simp [mkdirs, hd, List.count_eq_zero_of_not_mem]
  | cons x ds ih =>
    show (mkdirs ds (mkdirStep s x)).count d = _
    rw [ih]
    unfold mkdirStep
    by_cases hx : x ∈ s
    · simp only [hx, if_true]
      by_cases hd : d ∈ s
      · simp [hd]
      · have hdx : d ≠ x := fun h => hd (h ▸ hx)
        simp [hd, List.mem_cons, hdx]
    · simp only [hx, if_false]
      by_cases hd : d ∈ s
      · have hdx : d ≠ x := fun h => hx (h ▸ hd)
        have hmem : d ∈ s ++ [x] := List.mem_append.mpr (Or.inl hd)
        rw [if_pos hmem, if_pos hd, List.count_append]
        simp [List.count_singleton, hdx]
      · by_cases hdx : d = x
        · subst hdx
          have hmem : d ∈ s ++ [d] := List.mem_append.mpr (Or.inr (List.mem_singleton.mpr rfl))
          rw [if_pos hmem, if_neg hd, if_pos (List.mem_cons_self d ds), List.count_append]
          simp [List.count_eq_zero_of_not_mem hd]
        · have hmem : d ∉ s ++ [x] := by
            simp [List.mem_append, hd, hdx]
          rw [if_neg hmem, if_neg hd]
          simp [List.mem_cons, hdx]

theorem mkdirs_no_op (ds : List String) (s : List String) (h : ∀ x ∈ ds, x ∈ s) :
    mkdirs ds s = s := by
  induction ds with
  | nil => rfl
  | cons x ds ih =>
    show mkdirs ds (mkdirStep s x) = s
    rw [mkdirStep, if_pos (h x (List.mem_cons_self x ds))]
    exact ih fun y hy => h y (List.mem_cons_of_mem x hy)

/-- C2: `create_file_structure` is idempotent: a second run adds nothing,
the set of folders after a run is the old set together with the seven
fixed folders (joined onto the project directory), existing folders are
kept with unchanged multiplicity, and a newly created folder appears
exactly once. -/
theorem create_file_structure_idempotent (p : String) (s : List String) :
    create_file_structure p (create_file_structure p s) = create_file_structure p s ∧
    (∀ d, d ∈ create_file_structure p s ↔ d ∈ s ∨ d ∈ folders.map (joinPath p)) ∧
    (∀ d, (create_file_structure p s).count d =
      if d ∈ s then s.count d
      else if d ∈ folders.map (joinPath p) then 1 else 0) := by
  rw [create_file_structure_eq_mkdirs, create_file_structure_eq_mkdirs p s]
  refine ⟨?_, fun d => mem_mkdirs _ _ d, fun d => count_mkdirs _ _ d⟩
  exact mkdirs_no_op _ _ fun x hx => (mem_mkdirs _ _ x).mpr (Or.inr hx)

end UrbanHeat

namespace UrbanHeat

/-!
### Field-name derivation in `extract_values` (src/urbanHeat_tools.py lines 191-196)

Per raster: `name = raster.split('.')[0]`, `nameparts = name.split('_')`,
`new_fieldname = nameparts[-1] + '_' + nameparts[1] + '0m'`.  Python
evaluates `nameparts[-1]` first; a negative index on a nonempty list never
fails, while `nameparts[1]` raises `IndexError` (uncaught) when the stem
has fewer than two tokens — the `none` result below. -/
def extract_field_name (raster : String) : Option String :=
  match (split '.' raster)[0]? with
  | none => none
  | some name =>
    let nameparts := split '_' name
    match nameparts.getLast? with
    | none => none
    | some last =>
      match nameparts[1]? with
      | none => none
      | some p1 => some (last ++ "_" ++ p1 ++ "0m")

/-- Modelled from the claim's words, for comparison: drop the extension at
the first dot, split the stem on underscores, and concatenate the last
token, an underscore, the token at index 1, and the literal suffix `0m`. -/
def specFieldName (raster : String) : String :=
  let stem := String.mk (raster.toList.takeWhile (fun c => c != '.'))
  let toks := split '_' stem
  toks.getLastD "" ++ "_" ++ toks.getD 1 "" ++ "0m"

/-- The first chunk of `pySplit` is the longest separator-free leading
segment. -/
theorem pySplit_headD (sep : Char) (cs : List Char) :
    (pySplit sep cs).headD [] = cs.takeWhile (fun c => c != sep) := by
  induction cs with
  | nil => rfl
  | cons c cs ih =>
    by_cases h : c = sep
    · subst h
      simp [pySplit]
    · simp only [pySplit]
      rw [if_neg h]
      cases hr : pySplit sep cs with
      | nil => exact absurd hr (pySplit_ne_nil sep cs)
      | cons w ws =>
        rw [hr] at ih
        simp only [List.headD_cons] at ih
        simp [ih, h]

/-- `raster.split('.')[0]` is the stem before the first dot. -/
theorem split_dot_head (raster : String) :
    (split '.' raster)[0]? =
      some (String.mk (raster.toList.takeWhile (fun c => c != '.'))) := by
  unfold split
  cases hsp : pySplit '.' raster.toList with
  | nil => exact absurd hsp (pySplit_ne_nil '.' raster.toList)
  | cons w ws =>
    have hh := pySplit_headD '.' raster.toList
    rw [hsp] at hh
    simp only [List.headD_cons] at hh
    simp [hh]

/-- The per-raster loop of `extract_values`, building `inRasterList`:
`none` when the uncaught `IndexError` aborts the run. -/
def buildRasterList : List String → Option (List (String × String))
  | [] => some []
  | r :: rs =>
    match extract_field_name r with
    | none => none
    | some fn =>
      match buildRasterList rs with
      | none => none
      | some rest => some ((r, fn) :: rest)

/-- C4: when `extract_values` reaches the extraction call, `inRasterList`
holds exactly one `[raster, field-name]` pair per raster, in order. -/
theorem buildRasterList_one_per_raster (rasters : List String)
    (l : List (String × String)) (h : buildRasterList rasters = some l) :
    l.length = rasters.length ∧ l.map Prod.fst = rasters := by
  induction rasters generalizing l with
  | nil =>
    simp only [buildRasterList, Option.some.injEq] at h
    subst h
    simp
  | cons r rs ih =>
    simp only [buildRasterList] at h
    cases hf : extract_field_name r with
    | none => rw [hf] at h; simp at h
    | some fn =>
      rw [hf] at h
      cases hb : buildRasterList rs with
      | none => rw [hb] at h; simp at h
      | some rest =>
        rw [hb] at h
        simp only [Option.some.injEq] at h
        subst h
        obtain ⟨h1, h2⟩ := ih rest hb
        simp [h1, h2]

/-- C4 witness at a concrete one-raster folder. -/
theorem buildRasterList_one_per_raster_witness :
    buildRasterList ["focal_10_a_b.tif"] = some [("focal_10_a_b.tif", "b_100m")] ∧
    ([("focal_10_a_b.tif", "b_100m")] : List (String × String)).length =
      (["focal_10_a_b.tif"] : List String).length ∧
    ([("focal_10_a_b.tif", "b_100m")] : List (String × String)).map Prod.fst =
      ["focal_10_a_b.tif"] :=
  ⟨by decide, buildRasterList_one_per_raster ["focal_10_a_b.tif"] _ (by decide)⟩

/-- C5: whenever the stem before the first dot splits into at least two
underscore tokens, the derived field name is exactly the positional
formula of the claim: last token, underscore, token 1, suffix `0m`. -/
theorem extract_field_name_spec (raster : String)
    (h : 2 ≤ (split '_' (String.mk (raster.toList.takeWhile (fun c => c != '.')))).length) :
    extract_field_name raster = some (specFieldName raster) := by
  unfold extract_field_name specFieldName
  rw [split_dot_head]
  cases hlast : (split '_' (String.mk (raster.toList.takeWhile (fun c => c != '.')))).getLast? with
  | none =>
    rw [List.getLast?_eq_none_iff] at hlast
    rw [hlast] at h
    simp at h
  | some last =>
    have h1 : 1 < (split '_' (String.mk (raster.toList.takeWhile (fun c => c != '.')))).length := h
    have hd1 : (split '_' (String.mk (raster.toList.takeWhile (fun c => c != '.')))).getD 1 "" =
        (split '_' (String.mk (raster.toList.takeWhile (fun c => c != '.'))))[1] := by
      rw [List.getD_eq_getElem?_getD, List.getElem?_eq_getElem h1, Option.getD_some]
    simp only [String.toList] at hlast h1 hd1
    simp [hlast, List.getElem?_eq_getElem h1, hd1]

/-- C5 witness at a concrete raster name. -/
theorem extract_field_name_spec_witness :
    2 ≤ (split '_' (String.mk ("focal_10_a_b.tif".toList.takeWhile (fun c => c != '.')))).length ∧
    extract_field_name "focal_10_a_b.tif" = some (specFieldName "focal_10_a_b.tif") :=
  ⟨by decide, extract_field_name_spec "focal_10_a_b.tif" (by decide)⟩

end UrbanHeat

namespace UrbanHeat

/-!
### Output path construction and the external-call traces

`arcpy` operations are modelled by an inductive type of calls carrying
exactly the arguments the script passes (keyword arguments in source
order); straight-line loops become pure lists of calls.
-/

/-- `os.path.join(output_folder, f"resampled_{splitext(raster)[0]}.tif")`
(src line 71). -/
def resampled_path (output_folder raster : String) : String :=
  joinPath output_folder ("resampled_" ++ (splitext raster).1 ++ ".tif")

/-- `os.path.join(output_folder, f"focal_{rad}_{splitext(raster)[0]}.tif")`
(src line 111). -/
def focal_path (output_folder : String) (rad : Int) (raster : String) : String :=
  joinPath output_folder ("focal_" ++ toString rad ++ "_" ++ (splitext raster).1 ++ ".tif")

/-- `os.path.join(output_folder, 'output_name')` (src line 150): the
second argument of the join in the source is the string literal
`'output_name'`, not the variable `output_name`. -/
def create_fishnet_out_fc (output_folder output_name : String) : String :=
  joinPath output_folder "output_name"

/-- The external-toolbox calls the script can issue, with the arguments it
passes. -/
inductive ArcOp where
  | resample (in_raster out_raster cell_size resampling_type : String)
  | focalStatistics (in_raster : String) (radius : Int)
      (neighborhood_unit statistics_type out_raster : String)
  | getRasterProperty (raster property : String)
  | createFishnet (out_feature_class origin_coord y_axis_coord : String)
      (cell_width cell_height : Nat)
      (number_rows number_columns labels geometry_type : String)
  | copyFeatures (in_features out_feature_class : String)
  | extractMultiValuesToPoints (in_point_features : String)
      (in_rasters : List (String × String)) (bilinear_interpolate_values : String)
  deriving DecidableEq

/-- The calls issued by `apply_resampling` (src lines 69-78): one
`Resample_management` per raster, with the literal technique `'NEAREST'`
(src line 78) regardless of the `resampling_type` parameter. -/
def apply_resampling_calls (rasters : List String)
    (output_folder cellsize resampling_type : String) : List ArcOp :=
  rasters.map (fun raster =>
    ArcOp.resample raster (resampled_path output_folder raster) cellsize "NEAREST")

/-- The calls issued by `apply_focal_statistics` (src lines 108-121): for
each raster in order, one `FocalStatistics`+`save` per radius in order. -/
def apply_focal_statistics_calls (rasters : List String) (output_folder : String)
    (radius : List Int) (statistic_type : String) : List ArcOp :=
  rasters.flatMap (fun raster => radius.map (fun rad =>
    ArcOp.focalStatistics raster rad "CELL" statistic_type
      (focal_path output_folder rad raster)))

/-- C6: output-path construction is deterministic — two evaluations on the
same arguments agree — and yields `resampled_<stem>.tif`, resp.
`focal_<rad>_<stem>.tif`, inside the output folder. -/
theorem output_paths_deterministic (output_folder raster : String) (rad : Int) :
    resampled_path output_folder raster = resampled_path output_folder raster ∧
    resampled_path output_folder raster =
      joinPath output_folder ("resampled_" ++ (splitext raster).1 ++ ".tif") ∧
    focal_path output_folder rad raster = focal_path output_folder rad raster ∧
    focal_path output_folder rad raster =
      joinPath output_folder ("focal_" ++ toString rad ++ "_" ++ (splitext raster).1 ++ ".tif") :=
  ⟨rfl, rfl, rfl, rfl⟩

/-- C8: the fishnet output feature class does not depend on the
`output_name` argument and is always the literal `output_name` joined onto
the output folder. -/
theorem fishnet_output_name_ignored (output_folder name1 name2 : String) :
    create_fishnet_out_fc output_folder name1 = create_fishnet_out_fc output_folder name2 ∧
    create_fishnet_out_fc output_folder name1 = joinPath output_folder "output_name" :=
  ⟨rfl, rfl⟩

/-- C9: the calls of `apply_resampling` do not depend on the
`resampling_type` argument: every issued resample uses the literal
technique `NEAREST`. -/
theorem resampling_type_ignored (rasters : List String)
    (output_folder cellsize rt1 rt2 : String) :
    apply_resampling_calls rasters output_folder cellsize rt1 =
      apply_resampling_calls rasters output_folder cellsize rt2 ∧
    apply_resampling_calls rasters output_folder cellsize rt1 =
      rasters.map (fun raster =>
        ArcOp.resample raster (resampled_path output_folder raster) cellsize "NEAREST") :=
  ⟨rfl, rfl⟩

theorem focal_calls_length (rasters : List String) (output_folder : String)
    (radius : List Int) (statistic_type : String) :
    (apply_focal_statistics_calls rasters output_folder radius statistic_type).length =
      rasters.length * radius.length := by
  induction rasters with
  | nil => simp [apply_focal_statistics_calls]
  | cons r rs ih =>
    rw [apply_focal_statistics_calls, List.flatMap_cons]
    rw [apply_focal_statistics_calls] at ih
    rw [List.length_append, List.length_map, ih, List.length_cons, Nat.succ_mul]
    omega

/-- C7: the trace of `apply_focal_statistics` is laid out in contiguous
per-raster blocks: the call at position `i * |radius| + m` is the one for
raster `i` and radius `m`, so every call for an earlier raster precedes
every call for a later one, and within a raster the radii appear in list
order. -/
theorem focal_calls_sequential (rasters : List String) (output_folder : String)
    (radius : List Int) (statistic_type : String) (i m : Nat)
    (hi : i < rasters.length) (hm : m < radius.length) :
    (apply_focal_statistics_calls rasters output_folder radius statistic_type).length =
      rasters.length * radius.length ∧
    (apply_focal_statistics_calls rasters output_folder radius statistic_type)[i * radius.length + m]? =
      some (ArcOp.focalStatistics (rasters.getD i "") (radius.getD m 0) "CELL" statistic_type
        (focal_path output_folder (radius.getD m 0) (rasters.getD i ""))) := by
  refine ⟨focal_calls_length rasters output_folder radius statistic_type, ?_⟩
  induction rasters generalizing i with
  | nil => exact absurd hi (Nat.not_lt_zero i)
  | cons r rs ih =>
    rw [apply_focal_statistics_calls, List.flatMap_cons]
    cases i with
    | zero =>
      rw [List.getElem?_append]
      have hm2 : 0 * radius.length + m < (radius.map (fun rad =>
          ArcOp.focalStatistics r rad "CELL" statistic_type
            (focal_path output_folder rad r))).length := by
        rw [List.length_map]; omega
      rw [if_pos hm2, Nat.zero_mul, Nat.zero_add, List.getElem?_map,
        List.getElem?_eq_getElem hm, List.getD_cons_zero]
      have hdm : radius.getD m 0 = radius[m] := by
        rw [List.getD_eq_getElem?_getD, List.getElem?_eq_getElem hm, Option.getD_some]
      rw [hdm]
      rfl
    | succ i' =>
      have harith : (i' + 1) * radius.length + m =
          radius.length + (i' * radius.length + m) := by ring
      rw [List.getElem?_append, harith]
      have hlen : ¬(radius.length + (i' * radius.length + m) < (radius.map (fun rad =>
          ArcOp.focalStatistics r rad "CELL" statistic_type
            (focal_path output_folder rad r))).length) := by
        rw [List.length_map]; omega
      rw [if_neg hlen, List.length_map]
      have hsub : radius.length + (i' * radius.length + m) - radius.length =
          i' * radius.length + m := by omega
      rw [hsub, List.getD_cons_succ]
      exact ih i' (Nat.lt_of_succ_lt_succ hi)

/-- C7 witness: two rasters and one radius; the call at position
`1 * 1 + 0 = 1` is the one for the second raster. -/
theorem focal_calls_sequential_witness :
    (1 : Nat) < (["a.tif", "b.tif"] : List String).length ∧
    (0 : Nat) < ([10] : List Int).length ∧
    ((apply_focal_statistics_calls ["a.tif", "b.tif"] "out" [10] "MEAN").length =
      (["a.tif", "b.tif"] : List String).length * ([10] : List Int).length ∧
    (apply_focal_statistics_calls ["a.tif", "b.tif"] "out" [10] "MEAN")[1 * ([10] : List Int).length + 0]? =
      some (ArcOp.focalStatistics ((["a.tif", "b.tif"] : List String).getD 1 "")
        (([10] : List Int).getD 0 0) "CELL" "MEAN"
        (focal_path "out" (([10] : List Int).getD 0 0) ((["a.tif", "b.tif"] : List String).getD 1 "")))) :=
  ⟨by decide, by decide,
    focal_calls_sequential ["a.tif", "b.tif"] "out" [10] "MEAN" 1 0 (by decide) (by decide)⟩

end UrbanHeat

namespace UrbanHeat

/-!
### Exception behaviour (src/urbanHeat_tools.py lines 31-42, 69-81,
108-122, 141-159, 179-198)

A run threads an oracle `exec : ArcOp → Except ε String` for the external
toolbox (the `ok` payload is the textual result of a
`GetRasterProperties` call; other calls' payloads are ignored), and
`osRename` for `os.rename`.  A Python-level failure is either an uncaught
`IndexError`/`ValueError` raised by the script's own indexing or `int()`,
or an external error.
-/

/-- A failure as seen by the caller of one of the script's functions. -/
inductive PyErr (ε : Type) where
  | indexError
  | valueError
  | external (e : ε)

/-- Issue a list of calls in order, stopping at the first failure — the
behaviour of a loop body with no `try`. -/
def execCalls {ε : Type} (exec : ArcOp → Except ε String) :
    List ArcOp → Except ε Unit
  | [] => Except.ok ()
  | c :: cs =>
    match exec c with
    | Except.error e => Except.error e
    | Except.ok _ => execCalls exec cs

theorem execCalls_ok_iff {ε : Type} (exec : ArcOp → Except ε String) (cs : List ArcOp) :
    (∃ u, execCalls exec cs = Except.ok u) ↔ ∀ c ∈ cs, ∃ v, exec c = Except.ok v := by
  induction cs with
  | nil => simp [execCalls]
  | cons c cs ih =>
    simp only [execCalls]
    rw [List.forall_mem_cons]
    cases hc : exec c with
    | error e => simp [hc]
    | ok v => simp [hc, ih]

/-- `apply_resampling` issues its calls with no exception handler. -/
def apply_resampling_run {ε : Type} (exec : ArcOp → Except ε String)
    (rasters : List String) (output_folder cellsize resampling_type : String) :
    Except ε Unit :=
  execCalls exec (apply_resampling_calls rasters output_folder cellsize resampling_type)

/-- `apply_focal_statistics` issues its calls with no exception handler. -/
def apply_focal_statistics_run {ε : Type} (exec : ArcOp → Except ε String)
    (rasters : List String) (output_folder : String) (radius : List Int)
    (statistic_type : String) : Except ε Unit :=
  execCalls exec (apply_focal_statistics_calls rasters output_folder radius statistic_type)

/-- One iteration of the `rename_rasters` loop body, inside the `try`:
indexing errors and `os.rename` failures surface here. -/
def rename_file_attempt {ε : Type} (osRename : String → String → Except ε Unit)
    (input_folder file : String) : Except (PyErr ε) String :=
  match (split '_' file)[4]? with
  | none => Except.error PyErr.indexError
  | some t4 =>
    if pyStarts t4 "Sentinel" then
      match (split '_' file)[5]?, (split '_' file)[6]? with
      | some t5, some t6 =>
        let new_file := t4 ++ "_" ++ t5 ++ "_" ++ t6 ++ (splitext file).2
        match osRename (joinPath input_folder file) (joinPath input_folder new_file) with
        | Except.ok _ => Except.ok ("Renamed " ++ file ++ " to " ++ new_file)
        | Except.error e => Except.error (PyErr.external e)
      | _, _ => Except.error PyErr.indexError
    else Except.ok ""

/-- `rename_rasters`: each file's attempt runs under `try`, any failure is
converted into a log line, and the loop continues. -/
def rename_rasters_run {ε : Type} (osRename : String → String → Except ε Unit)
    (input_folder : String) (files : List String) : Except (PyErr ε) (List String) :=
  Except.ok (files.map (fun file =>
    match rename_file_attempt osRename input_folder file with
    | Except.ok msg => msg
    | Except.error _ => file ++ " not renamed."))

/-- `create_fishnet`: six `GetRasterProperties` calls, a Python
`int(...)` on the bottom coordinate, then one `CreateFishnet` call;
nothing is caught.  `pyInt` models the Python `int` builtin on strings. -/
def create_fishnet_run {ε : Type} (exec : ArcOp → Except ε String)
    (pyInt : String → Option Int) (input_raster output_folder output_name : String) :
    Except (PyErr ε) Unit :=
  match exec (ArcOp.getRasterProperty input_raster "LEFT") with
  | Except.error e => Except.error (PyErr.external e)
  | Except.ok raster_left =>
  match exec (ArcOp.getRasterProperty input_raster "BOTTOM") with
  | Except.error e => Except.error (PyErr.external e)
  | Except.ok raster_bottom =>
  match exec (ArcOp.getRasterProperty input_raster "RIGHT") with
  | Except.error e => Except.error (PyErr.external e)
  | Except.ok _raster_right =>
  match exec (ArcOp.getRasterProperty input_raster "TOP") with
  | Except.error e => Except.error (PyErr.external e)
  | Except.ok _raster_top =>
  match exec (ArcOp.getRasterProperty input_raster "COLUMNCOUNT") with
  | Except.error e => Except.error (PyErr.external e)
  | Except.ok raster_ncols =>
  match exec (ArcOp.getRasterProperty input_raster "ROWCOUNT") with
  | Except.error e => Except.error (PyErr.external e)
  | Except.ok raster_nrows =>
  match pyInt raster_bottom with
  | none => Except.error PyErr.valueError
  | some bottom_int =>
  match exec (ArcOp.createFishnet (create_fishnet_out_fc output_folder output_name)
      (raster_left ++ " " ++ raster_bottom)
      (raster_left ++ " " ++ toString (bottom_int + 10)) 10 10
      raster_nrows raster_ncols "LABELS" "POLYLINE") with
  | Except.error e => Except.error (PyErr.external e)
  | Except.ok _ => Except.ok ()

/-- `extract_values`: copy the points, build `inRasterList` (whose
`nameparts[1]` may raise an uncaught `IndexError`), then extract; nothing
is caught. -/
def extract_values_run {ε : Type} (exec : ArcOp → Except ε String)
    (in_points_file rasters_folder output_folder output_file : String)
    (rasters : List String) : Except (PyErr ε) Unit :=
  match exec (ArcOp.copyFeatures in_points_file (joinPath output_folder output_file)) with
  | Except.error e => Except.error (PyErr.external e)
  | Except.ok _ =>
  match buildRasterList rasters with
  | none => Except.error PyErr.indexError
  | some inRasterList =>
  match exec (ArcOp.extractMultiValuesToPoints (joinPath output_folder output_file)
      inRasterList "NONE") with
  | Except.error e => Except.error (PyErr.external e)
  | Except.ok _ => Except.ok ()

/-- C3: `rename_rasters` never raises — it returns a log with one entry
per file regardless of the per-file outcome — while the four other stages
succeed exactly when every call they issue (and the script's own parsing)
succeeds: any failure propagates to the caller. -/
theorem error_handling (ε : Type) (osRename : String → String → Except ε Unit)
    (exec : ArcOp → Except ε String) (pyInt : String → Option Int)
    (input_folder : String) (files rasters : List String)
    (output_folder cellsize resampling_type statistic_type : String)
    (radius : List Int)
    (in_points_file rasters_folder output_file input_raster output_name : String) :
    (∃ log, rename_rasters_run osRename input_folder files = Except.ok log ∧
      log.length = files.length) ∧
    ((∃ u, apply_resampling_run exec rasters output_folder cellsize resampling_type =
        Except.ok u) ↔
      ∀ c ∈ apply_resampling_calls rasters output_folder cellsize resampling_type,
        ∃ v, exec c = Except.ok v) ∧
    ((∃ u, apply_focal_statistics_run exec rasters output_folder radius statistic_type =
        Except.ok u) ↔
      ∀ c ∈ apply_focal_statistics_calls rasters output_folder radius statistic_type,
        ∃ v, exec c = Except.ok v) ∧
    ((∃ u, create_fishnet_run exec pyInt input_raster output_folder output_name =
        Except.ok u) ↔
      ∃ left bottom,
        exec (ArcOp.getRasterProperty input_raster "LEFT") = Except.ok left ∧
        exec (ArcOp.getRasterProperty input_raster "BOTTOM") = Except.ok bottom ∧
        (∃ r, exec (ArcOp.getRasterProperty input_raster "RIGHT") = Except.ok r) ∧
        (∃ t, exec (ArcOp.getRasterProperty input_raster "TOP") = Except.ok t) ∧
        ∃ ncols nrows,
          exec (ArcOp.getRasterProperty input_raster "COLUMNCOUNT") = Except.ok ncols ∧
          exec (ArcOp.getRasterProperty input_raster "ROWCOUNT") = Except.ok nrows ∧
          ∃ bi, pyInt bottom = some bi ∧
            ∃ u, exec (ArcOp.createFishnet (create_fishnet_out_fc output_folder output_name)
              (left ++ " " ++ bottom) (left ++ " " ++ toString (bi + 10)) 10 10
              nrows ncols "LABELS" "POLYLINE") = Except.ok u) ∧
    ((∃ u, extract_values_run exec in_points_file rasters_folder output_folder output_file
        rasters = Except.ok u) ↔
      (∃ v, exec (ArcOp.copyFeatures in_points_file (joinPath output_folder output_file)) =
        Except.ok v) ∧
      ∃ pairs, buildRasterList rasters = some pairs ∧
        ∃ w, exec (ArcOp.extractMultiValuesToPoints (joinPath output_folder output_file)
          pairs "NONE") = Except.ok w) := by
  refine ⟨⟨_, rfl, List.length_map _ _⟩,
    execCalls_ok_iff exec _, execCalls_ok_iff exec _, ?_, ?_⟩
  · unfold create_fishnet_run
    cases hL : exec (ArcOp.getRasterProperty input_raster "LEFT") with
    | error e => simp [hL]
    | ok left =>
    cases hB : exec (ArcOp.getRasterProperty input_raster "BOTTOM") with
    | error e => simp [hL, hB]
    | ok bottom =>
    cases hR : exec (ArcOp.getRasterProperty input_raster "RIGHT") with
    | error e => simp [hL, hB, hR]
    | ok right =>
    cases hT : exec (ArcOp.getRasterProperty input_raster "TOP") with
    | error e => simp [hL, hB, hR, hT]
    | ok top =>
    cases hC : exec (ArcOp.getRasterProperty input_raster "COLUMNCOUNT") with
    | error e => simp [hL, hB, hR, hT, hC]
    | ok ncols =>
    cases hW : exec (ArcOp.getRasterProperty input_raster "ROWCOUNT") with
    | error e => simp [hL, hB, hR, hT, hC, hW]
    | ok nrows =>
    cases hI : pyInt bottom with
    | none => simp [hL, hB, hR, hT, hC, hW, hI]
    | some bi =>
    cases hF : exec (ArcOp.createFishnet (create_fishnet_out_fc output_folder output_name)
        (left ++ " " ++ bottom) (left ++ " " ++ toString (bi + 10)) 10 10
        nrows ncols "LABELS" "POLYLINE") with
    | error e => simp [hL, hB, hR, hT, hC, hW, hI, hF]
    | ok u => simp [hL, hB, hR, hT, hC, hW, hI, hF]
  · unfold extract_values_run
    cases hCp : exec (ArcOp.copyFeatures in_points_file (joinPath output_folder output_file)) with
    | error e => simp [hCp]
    | ok v =>
    cases hBl : buildRasterList rasters with
    | none => simp [hCp, hBl]
    | some pairs =>
    cases hEx : exec (ArcOp.extractMultiValuesToPoints (joinPath output_folder output_file)
        pairs "NONE") with
    | error e => simp [hCp, hBl, hEx]
    | ok w => simp [hCp, hBl, hEx]

end UrbanHeat

namespace UrbanHeat

/-!
### Filesystem effect of `extract_values` (src/urbanHeat_tools.py lines 179-198)

Feature files are modelled by their list of attribute field names, the
filesystem by a map from path to file.  `CopyFeatures(src, dst)` writes
the contents of `src` at `dst`; `ExtractMultiValuesToPoints` appends, in
place, one field per `[raster, field]` pair to the file it is given.
-/

/-- Filesystem of point-feature files: path to attribute columns. -/
def PState : Type := String → Option (List String)

/-- `arcpy.management.CopyFeatures(in_features, out_fc)`. -/
def copyFeaturesS (in_features out_fc : String) (s : PState) : PState :=
  fun p => if p = out_fc then s in_features else s p

/-- `arcpy.sa.ExtractMultiValuesToPoints(points, pairs, "NONE")`: adds one
attribute column per pair to the point file, in place. -/
def extractMultiS (points : String) (pairs : List (String × String)) (s : PState) : PState :=
  fun p =>
    if p = points then (s points).map (fun cols => cols ++ pairs.map Prod.snd)
    else s p

/-- The filesystem after `extract_values`: copy the input points to
`join(output_folder, output_file)`, then (unless `inRasterList`
construction raised) extract onto that path.  The boolean records whether
the run completed. -/
def extract_values_state (in_points_file rasters_folder output_folder output_file : String)
    (rasters : List String) (s : PState) : PState × Bool :=
  let output := joinPath output_folder output_file
  let s1 := copyFeaturesS in_points_file output s
  match buildRasterList rasters with
  | none => (s1, false)
  | some inRasterList => (extractMultiS output inRasterList s1, true)

/-- C10: the claim as stated is false when the input path aliases the
output path: calling `extract_values` with
`in_points_file = join(output_folder, output_file)` modifies the input
point file (the copy is the original, and extraction appends a column to
it). -/
theorem extract_values_modifies_aliased_input :
    (extract_values_state "out/f.shp" "rfold" "out" "f.shp" ["focal_10_a_b.tif"]
        (fun p => if p = "out/f.shp" then some ["id"] else none)).1 "out/f.shp" ≠
      (fun p : String => if p = "out/f.shp" then (some ["id"] : Option (List String))
        else none) "out/f.shp" := by
  decide

/-- C10 (amended): provided `in_points_file` is a different path from
`join(output_folder, output_file)`, `extract_values` leaves the input
point file unchanged, and on a completed run the added columns land only
on the copy, which holds the input's columns plus one field per pair. -/
theorem extract_values_preserves_input (s : PState)
    (in_points_file rasters_folder output_folder output_file : String)
    (rasters : List String)
    (h : in_points_file ≠ joinPath output_folder output_file) :
    (extract_values_state in_points_file rasters_folder output_folder output_file
        rasters s).1 in_points_file = s in_points_file ∧
    (∀ pairs, buildRasterList rasters = some pairs →
      (extract_values_state in_points_file rasters_folder output_folder output_file
          rasters s).1 (joinPath output_folder output_file) =
        (s in_points_file).map (fun cols => cols ++ pairs.map Prod.snd)) := by
  unfold extract_values_state
  cases hBl : buildRasterList rasters with
  | none =>
    refine ⟨?_, ?_⟩
    · simp [copyFeaturesS, h]
    · intro pairs hp
      simp at hp
  | some inRasterList =>
    refine ⟨?_, ?_⟩
    · simp [extractMultiS, copyFeaturesS, h]
    · intro pairs hp
      injection hp with hp
      subst hp
      simp [extractMultiS, copyFeaturesS]

/-- C10 witness at concrete, non-aliased paths. -/
theorem extract_values_preserves_input_witness :
    "in.shp" ≠ joinPath "out" "f.shp" ∧
    ((extract_values_state "in.shp" "rfold" "out" "f.shp" ["focal_10_a_b.tif"]
        (fun p => if p = "in.shp" then some ["id"] else none)).1 "in.shp" =
      (fun p : String => if p = "in.shp" then (some ["id"] : Option (List String))
        else none) "in.shp" ∧
    (∀ pairs, buildRasterList ["focal_10_a_b.tif"] = some pairs →
      (extract_values_state "in.shp" "rfold" "out" "f.shp" ["focal_10_a_b.tif"]
          (fun p => if p = "in.shp" then some ["id"] else none)).1 (joinPath "out" "f.shp") =
        ((fun p : String => if p = "in.shp" then (some ["id"] : Option (List String))
          else none) "in.shp").map (fun cols => cols ++ pairs.map Prod.snd))) :=
  ⟨by decide, extract_values_preserves_input _ "in.shp" "rfold" "out" "f.shp"
    ["focal_10_a_b.tif"] (by decide)⟩

end UrbanHeat
